import Mathlib

/-!
Verification of the Five-in-a-row (Gomoku) engine of shrpate/Five-in-a-row.

The deciding code lives in src/assignment2/gtp_connection.py (the exhaustive
solver invoked by the solve command) and src/assignment3/gtp_connection.py
(the heuristic policy engine invoked by policy_moves / genmove).  The Board
class itself (board module, play_move / set_color / get_empty_points /
detect_five_in_a_row / detect_four_in_a_row, and GoBoardUtil.opponent) is not
part of the sources, so those operations are modelled from the spec (spec.md
sect. 3 and 4.1), as noted on each definition.

Colors are encoded as in the program: EMPTY = 0, BLACK = 1, WHITE = 2,
BORDER = 3.  A board is the flattened (size+2) x (size+1) linear store of the
spec, indexed by row*(size+1)+col; any out-of-range read yields BORDER.
Wall-clock deadline checks (time.time() - self.start_time >= self.timelimit)
are modelled by an oracle list of booleans consumed one entry per check.
Recursion of the solver is bounded by an explicit fuel parameter; with fuel
larger than the number of empty cells the embedding and the program agree,
and every theorem below either holds for all fuel or names the fuel it needs.
-/

namespace FiveInARow

/-- Cell content codes, as used by the program. -/
def EMPTY : Nat := 0

/-- Black stone code. -/
def BLACK : Nat := 1

/-- White stone code. -/
def WHITE : Nat := 2

/-- Border sentinel code. -/
def BORDER : Nat := 3

/-- Read a cell of the linear board store; out-of-range reads yield BORDER,
like the sentinel border of the spec's (N+2)x(N+2) conceptual grid. -/
def cell (b : List Nat) (p : Nat) : Nat := b.getD p BORDER

/-- Modelled from the spec: GoBoardUtil.opponent flips BLACK and WHITE
(the current player "flips after every accepted move", spec sect. 3). -/
def opponent (c : Nat) : Nat := 3 - c

/-- Modelled from the spec: Board.get_empty_points enumerates the empty
interior cells in row-major (increasing index) order (spec sect. 4.1:
enumeration order consistent within a call chain, row-major recommended). -/
def get_empty_points (b : List Nat) : List Nat :=
  (List.range b.length).filter (fun p => cell b p == EMPTY)

/-- Five consecutive same-colored stones starting at p in direction d. -/
def five_at (b : List Nat) (p d : Nat) : Bool :=
  (cell b p == BLACK || cell b p == WHITE) &&
  cell b (p + d) == cell b p &&
  cell b (p + 2 * d) == cell b p &&
  cell b (p + 3 * d) == cell b p &&
  cell b (p + 4 * d) == cell b p

/-- The four scan directions of the detector on the row*(size+1)+col layout:
horizontal, vertical and the two diagonals. -/
def directions (size : Nat) : List Nat :=
  [1, size + 1, size + 2, size]

/-- Modelled from the spec: Board.detect_five_in_a_row scans every cell and
the 4 axis directions for 5 consecutive same-colored stones and returns the
first color found, else EMPTY (spec sect. 4.1). -/
def detect_five_in_a_row (size : Nat) (b : List Nat) : Nat :=
  match (List.range b.length).findSome? (fun p =>
      (directions size).findSome? (fun d =>
        if five_at b p d then some (cell b p) else none)) with
  | some c => c
  | none => EMPTY

/-- Four consecutive same-colored stones starting at p in direction d with at
least one open (empty) extension cell. -/
def four_at (b : List Nat) (p d : Nat) : Bool :=
  (cell b p == BLACK || cell b p == WHITE) &&
  cell b (p + d) == cell b p &&
  cell b (p + 2 * d) == cell b p &&
  cell b (p + 3 * d) == cell b p &&
  (cell b (p + 4 * d) == EMPTY || (decide (d ≤ p) && cell b (p - d) == EMPTY))

/-- Modelled from the spec: Board.detect_four_in_a_row, the same scan for a
run of 4 with at least one open extension cell (spec sect. 4.1). -/
def detect_four_in_a_row (size : Nat) (b : List Nat) : Nat :=
  match (List.range b.length).findSome? (fun p =>
      (directions size).findSome? (fun d =>
        if four_at b p d then some (cell b p) else none)) with
  | some c => c
  | none => EMPTY

/-- Build a board of the given size from an assignment of interior cells:
interior cells (row and col in 1..size on the row*(size+1)+col layout) get
f p, all other cells of the store are BORDER. -/
def mkBoard (size : Nat) (f : Nat → Nat) : List Nat :=
  (List.range ((size + 2) * (size + 1))).map (fun p =>
    if 1 ≤ p / (size + 1) && p / (size + 1) ≤ size &&
       1 ≤ p % (size + 1) && p % (size + 1) ≤ size then f p else BORDER)

/-- State of the assignment2 GtpConnection as the solver sees it: the board
store, board.current_player, the shared winner tag, the two shared move
accumulator lists self.move and self.move_2, and the deadline oracle (one
boolean per reading of the wall clock: true means the elapsed time has
reached the time limit). -/
structure SState where
  board : List Nat
  current_player : Nat
  winner : String
  move : List Nat
  move_2 : List Nat
  oracle : List Bool
deriving DecidableEq

/-- Modelled from the spec: Board.play_move fails (no mutation) when the
target cell is not empty; otherwise it sets the cell to the color and
advances the current player (spec sect. 4.1).  Assignment2 instance. -/
def play_move (s : SState) (pos color : Nat) : Bool × SState :=
  if cell s.board pos ≠ EMPTY then (false, s)
  else (true, { s with board := s.board.set pos color,
                       current_player := opponent color })

/-- Modelled from the spec: Board.set_color c pos writes c into the cell,
used by the search with c = EMPTY to undo a speculative move.
Assignment2 instance. -/
def set_color (s : SState) (c pos : Nat) : SState :=
  { s with board := s.board.set pos c }

/-- One reading of the deadline check (time.time() - self.start_time >=
self.timelimit): consume the head of the oracle; an exhausted oracle reads
as "deadline not reached". -/
def tick (s : SState) : Bool × SState :=
  match s.oracle with
  | [] => (false, s)
  | t :: rest => (t, { s with oracle := rest })

/-- The body of one iteration of the loop of minimaxBooleanOR
(src/assignment2/gtp_connection.py lines 287-297) before the recursive call:
append pt to self.move, play it for board.current_player, detect an
immediate five-in-a-row (recording winner and self.move_2 on a hit), and set
board.current_player to 2. -/
def orChild (size : Nat) (s : SState) (pt : Nat) : SState :=
  let s := { s with move := s.move ++ [pt] }
  let s := (play_move s pt s.current_player).2
  let result := detect_five_in_a_row size s.board
  let s := if result == 1 then { s with winner := "b", move_2 := s.move_2 ++ [pt] } else s
  let s := if result == 2 then { s with winner := "w", move_2 := s.move_2 ++ [pt] } else s
  { s with current_player := 2 }

/-- Mirror image for minimaxBooleanAND (lines 325-335): sets
board.current_player to 1 before recursing into the black search. -/
def andChild (size : Nat) (s : SState) (pt : Nat) : SState :=
  let s := { s with move := s.move ++ [pt] }
  let s := (play_move s pt s.current_player).2
  let result := detect_five_in_a_row size s.board
  let s := if result == 1 then { s with winner := "b", move_2 := s.move_2 ++ [pt] } else s
  let s := if result == 2 then { s with winner := "w", move_2 := s.move_2 ++ [pt] } else s
  { s with current_player := 1 }

mutual

/-- minimaxBooleanOR (src/assignment2/gtp_connection.py lines 269-305), the
black-to-move primary search.  On deadline: winner := "unknown" and return.
On a full board: leaf resolution with the source's dangling else (the
"if result == 2 ... else winner := draw" clause overwrites the result == 1
assignment).  Otherwise loop over the empty points, breaking at the first
decisive child. -/
def minimaxBooleanOR (size : Nat) (fuel : Nat) (s : SState) : String × SState :=
  match fuel with
  | 0 => ( "out of fuel", s)
  | fuel + 1 =>
    let ts := tick s
    if ts.1 then
      let s := { ts.2 with winner := "unknown" }
      (s.winner, s)
    else
      let s := ts.2
      let empty := get_empty_points s.board
      if empty.length == 0 then
        let result := detect_five_in_a_row size s.board
        let s := if result == 1 then { s with winner := "b" } else s
        let s := if result == 2 then { s with winner := "w" }
                 else { s with winner := "draw" }
        (s.winner, s)
      else
        orLoop size fuel s empty

/-- The loop of minimaxBooleanOR over the empty points (lines 287-305):
play each point, recurse into the white search, undo, and break as soon as
the recursive result is "w" or "b". -/
def orLoop (size : Nat) (fuel : Nat) (s : SState) (empties : List Nat) :
    String × SState :=
  match fuel, empties with
  | _, [] => ( "", s)
  | 0, _ :: _ => ( "out of fuel", s)
  | fuel + 1, pt :: rest =>
    let s := orChild size s pt
    let rs := minimaxBooleanAND size fuel s
    let result := rs.1
    let s := set_color rs.2 0 pt
    if result == "w" || result == "b" then (result, s)
    else if rest.isEmpty then (result, s)
    else orLoop size fuel s rest

/-- minimaxBooleanAND (lines 307-342), the white-to-move primary search.
Its leaf resolution uses three independent ifs, so (unlike the OR side) it
reports "b" when the detector reports BLACK. -/
def minimaxBooleanAND (size : Nat) (fuel : Nat) (s : SState) : String × SState :=
  match fuel with
  | 0 => ( "out of fuel", s)
  | fuel + 1 =>
    let ts := tick s
    if ts.1 then
      let s := { ts.2 with winner := "unknown" }
      (s.winner, s)
    else
      let s := ts.2
      let empty := get_empty_points s.board
      if empty.length == 0 then
        let result := detect_five_in_a_row size s.board
        let s := if result == 1 then { s with winner := "b" } else s
        let s := if result == 2 then { s with winner := "w" } else s
        let s := if result == 0 then { s with winner := "draw" } else s
        (s.winner, s)
      else
        andLoop size fuel s empty

/-- The loop of minimaxBooleanAND over the empty points (lines 325-342). -/
def andLoop (size : Nat) (fuel : Nat) (s : SState) (empties : List Nat) :
    String × SState :=
  match fuel, empties with
  | _, [] => ( "", s)
  | 0, _ :: _ => ( "out of fuel", s)
  | fuel + 1, pt :: rest =>
    let s := andChild size s pt
    let rs := minimaxBooleanOR size fuel s
    let result := rs.1
    let s := set_color rs.2 0 pt
    if result == "b" || result == "w" then (result, s)
    else if rest.isEmpty then (result, s)
    else andLoop size fuel s rest

end

mutual

/-- minimaxBooleanOR_modified (lines 344-364), the black rescue search: on
deadline it returns the current shared winner (no assignment); the leaf
treats any non-BLACK detector result as "draw"; the loop tries every empty
point (no break) and appends to self.move after the undo. -/
def minimaxBooleanOR_modified (size : Nat) (fuel : Nat) (s : SState) :
    String × SState :=
  match fuel with
  | 0 => ( "out of fuel", s)
  | fuel + 1 =>
    let ts := tick s
    if ts.1 then (ts.2.winner, ts.2)
    else
      let s := ts.2
      let empty := get_empty_points s.board
      if empty.length == 0 then
        let result := detect_five_in_a_row size s.board
        let s := if result == 1 then { s with winner := "b" }
                 else { s with winner := "draw" }
        (s.winner, s)
      else
        orLoopModified size fuel s empty

/-- The loop of minimaxBooleanOR_modified (lines 358-364). -/
def orLoopModified (size : Nat) (fuel : Nat) (s : SState)
    (empties : List Nat) : String × SState :=
  match fuel, empties with
  | _, [] => ( "", s)
  | 0, _ :: _ => ( "out of fuel", s)
  | fuel + 1, pt :: rest =>
    let s := (play_move s pt s.current_player).2
    let s := { s with current_player := 2 }
    let rs := minimaxBooleanAND_modified size fuel s
    let result := rs.1
    let s := set_color rs.2 0 pt
    let s := { s with move := s.move ++ [pt] }
    if rest.isEmpty then (result, s)
    else orLoopModified size fuel s rest

/-- minimaxBooleanAND_modified (lines 366-386), the white rescue search: on
deadline it returns the current shared winner; the leaf sets "w" on WHITE
and "draw" on 0 (a BLACK result leaves the winner unchanged). -/
def minimaxBooleanAND_modified (size : Nat) (fuel : Nat) (s : SState) :
    String × SState :=
  match fuel with
  | 0 => ( "out of fuel", s)
  | fuel + 1 =>
    let ts := tick s
    if ts.1 then (ts.2.winner, ts.2)
    else
      let s := ts.2
      let empty := get_empty_points s.board
      if empty.length == 0 then
        let result := detect_five_in_a_row size s.board
        let s := if result == 2 then { s with winner := "w" } else s
        let s := if result == 0 then { s with winner := "draw" } else s
        (s.winner, s)
      else
        andLoopModified size fuel s empty

/-- The loop of minimaxBooleanAND_modified (lines 380-386). -/
def andLoopModified (size : Nat) (fuel : Nat) (s : SState)
    (empties : List Nat) : String × SState :=
  match fuel, empties with
  | _, [] => ( "", s)
  | 0, _ :: _ => ( "out of fuel", s)
  | fuel + 1, pt :: rest =>
    let s := (play_move s pt s.current_player).2
    let s := { s with current_player := 1 }
    let rs := minimaxBooleanOR_modified size fuel s
    let result := rs.1
    let s := set_color rs.2 0 pt
    let s := { s with move := s.move ++ [pt] }
    if rest.isEmpty then (result, s)
    else andLoopModified size fuel s rest

end

/-- point_to_coord (src/assignment2/gtp_connection.py lines 571-581):
divmod of the point by size+1. -/
def point_to_coord (point size : Nat) : Nat × Nat :=
  (point / (size + 1), point % (size + 1))

/-- The column letters used by format_point (I is skipped). -/
def column_letters : List Char :=
  ['A', 'B', 'C', 'D', 'E', 'F', 'G', 'H', 'J', 'K', 'L', 'M',
   'N', 'O', 'P', 'Q', 'R', 'S', 'T', 'U', 'V', 'W', 'X', 'Y', 'Z']

/-- format_point (lines 584-595): column letter of col-1 followed by the
row number. -/
def format_point (rc : Nat × Nat) : String :=
  String.mk [column_letters.getD (rc.2 - 1) 'A'] ++ toString rc.1

/-- The move string of the solve command: "" for no move (the Python local
move staying ""), else format_point of point_to_coord. -/
def formatMoveOpt (m : Option Nat) (size : Nat) : String :=
  match m with
  | none => ""
  | some p => format_point (point_to_coord p size)

/-- color_to_int (lines 626-633) restricted to the winner tags it is called
with in solve_cmd; unknown keys (a KeyError in Python) are mapped to 99. -/
def color_to_int (c : String) : Nat :=
  if c == "b" then 1 else if c == "w" then 2
  else if c == "e" then 0 else if c == "BORDER" then 3 else 99

/-- The response-formatting tail of solve_cmd (lines 428-447): the chain of
ifs choosing between winner-plus-move, bare winner, and "unknown". -/
def solveOutput (current_player : Nat) (winner move_as_string : String) :
    String :=
  let output := ""
  let output := if current_player == 1 && winner == "b" then
    winner ++ " " ++ move_as_string else output
  let output := if current_player == 2 && winner == "w" then
    winner ++ " " ++ move_as_string else output
  let output := if winner == "draw" then
    winner ++ " " ++ move_as_string else output
  let output := if winner == "unknown" then winner else output
  let output := if current_player == 1 && winner == "w" then winner else output
  let output := if current_player == 2 && winner == "b" then winner else output
  output

/-- The move selection of solve_cmd after a search pass (lines 409-411 and
424-426): the last entry of the shared accumulator self.move, overridden by
the first entry of self.move_2 when that list is non-empty.  The Python
expression self.move[-1] raises on an empty accumulator; here it is the
getLast? of the list. -/
def selectMove (s : SState) : Option Nat :=
  let move := s.move.getLast?
  if s.move_2.length != 0 then s.move_2.head? else move

/-- solve_cmd (src/assignment2/gtp_connection.py lines 388-447): detect an
existing five-in-a-row; otherwise run the primary search for the current
player, select the recommended move, and, when the reported winner is the
opponent color, rerun with the rescue searches; finally format the response.
Returns the response, the selected move and the final state. -/
def solve_cmd (size fuel : Nat) (s : SState) : String × Option Nat × SState :=
  let s := { s with winner := "unknown" }
  let move : Option Nat := none
  let current_player := s.current_player
  let result := detect_five_in_a_row size s.board
  let s := if result == 1 then { s with winner := "b" } else s
  let s := if result == 2 then { s with winner := "w" } else s
  let ms :=
    if result == 0 then
      let s := { s with move_2 := [] }
      let rs := if current_player == 1 then minimaxBooleanOR size fuel s
                else minimaxBooleanAND size fuel s
      let s := { rs.2 with winner := rs.1 }
      let move := selectMove s
      if (s.winner == "b" || s.winner == "w") &&
         color_to_int s.winner != current_player then
        let s := { s with move_2 := [] }
        let rs := if current_player == 1 then
                    minimaxBooleanOR_modified size fuel s
                  else minimaxBooleanAND_modified size fuel s
        let s := { rs.2 with winner := rs.1 }
        let move := selectMove s
        (move, s)
      else (move, s)
    else (move, s)
  let move := ms.1
  let s := ms.2
  (solveOutput current_player s.winner (formatMoveOpt move size), move, s)

/-- gogui_rules_final_result_cmd (src/assignment2/gtp_connection.py lines
550-560 and, identically, src/assignment3/gtp_connection.py lines 523-533):
report "draw" whenever no empty point remains, otherwise report the
detector's color, or "unknown" when it reports none. -/
def gogui_rules_final_result (size : Nat) (b : List Nat) : String :=
  if (get_empty_points b).length == 0 then "draw"
  else
    let result := detect_five_in_a_row size b
    if result == 1 then "black"
    else if result == 2 then "white"
    else "unknown"

/-- State of the assignment3 GtpConnection as the policy engine sees it: the
board store, board.current_player and the shared rule-candidate accumulator
self.moves.  The board size and the rollout count self.N are passed
explicitly (neither changes during a call). -/
structure PState where
  board : List Nat
  current_player : Nat
  moves : List Nat
deriving DecidableEq

/-- Modelled from the spec: Board.play_move for the assignment3 instance
(same contract as the assignment2 one). -/
def play_moveP (s : PState) (pos color : Nat) : Bool × PState :=
  if cell s.board pos ≠ EMPTY then (false, s)
  else (true, { s with board := s.board.set pos color,
                       current_player := opponent color })

/-- Modelled from the spec: Board.set_color for the assignment3 instance. -/
def set_colorP (s : PState) (c pos : Nat) : PState :=
  { s with board := s.board.set pos c }

/-- The undo loops "for i in range(len(...)): self.board.set_color(0, l[i])"
of random and openFour. -/
def undoAll (s : PState) (cells : List Nat) : PState :=
  cells.foldl (fun t e => set_colorP t 0 e) s

/-- The loop of win (src/assignment3/gtp_connection.py lines 310-317): play
each empty point for the player, record it in self.moves when the detector
then reports the player, and undo. -/
def winLoop (size player : Nat) (s : PState) : List Nat → PState
  | [] => s
  | e :: rest =>
    let s := (play_moveP s e player).2
    let result := detect_five_in_a_row size s.board
    let s := if result == player then { s with moves := s.moves ++ [e] } else s
    let s := set_colorP s 0 e
    winLoop size player s rest

/-- win (lines 310-317): the Win rule, run over the current empty points. -/
def win (size player : Nat) (s : PState) : PState :=
  winLoop size player s (get_empty_points s.board)

/-- The loop of win_modified (lines 299-307): like win but undoing before
the check and returning the first winning point found, if any. -/
def win_modifiedLoop (size player : Nat) (s : PState) :
    List Nat → Option Nat × PState
  | [] => (none, s)
  | e :: rest =>
    let s := (play_moveP s e player).2
    let result := detect_five_in_a_row size s.board
    let s := set_colorP s 0 e
    if result == player then (some e, s)
    else win_modifiedLoop size player s rest

/-- win_modified (lines 299-307). -/
def win_modified (size player : Nat) (s : PState) : Option Nat × PState :=
  win_modifiedLoop size player s (get_empty_points s.board)

/-- The inner loop of openFour (lines 328-335): for each currently empty
point, play it, detect, then undo it together with the second move and the
original move (all three of these set_color calls are inside this loop in
the source), recording the original point on a detector hit. -/
def openFourInner (size player m eO : Nat) (s : PState) : List Nat → PState
  | [] => s
  | e :: rest =>
    let s := (play_moveP s e player).2
    let result := detect_five_in_a_row size s.board
    let s := set_colorP s 0 e
    let s := set_colorP s 0 m
    let s := set_colorP s 0 eO
    let s := if result == player then { s with moves := s.moves ++ [eO] } else s
    openFourInner size player m eO s rest

/-- The outer loop of openFour (lines 322-336): play each point of the
original empty list, look for a completing second move via win_modified,
and when one exists play it for the opponent and run the inner loop. -/
def openFourLoop (size player : Nat) (s : PState) : List Nat → PState
  | [] => s
  | eO :: rest =>
    let s := (play_moveP s eO player).2
    let ms := win_modified size player s
    let s :=
      match ms.1 with
      | some m =>
        let s := (play_moveP ms.2 m (opponent player)).2
        openFourInner size player m eO s (get_empty_points s.board)
      | none => ms.2
    openFourLoop size player s rest

/-- openFour (lines 320-339): the OpenFour rule; after the outer loop every
point of the original empty list is reset to EMPTY. -/
def openFour (size player : Nat) (s : PState) : PState :=
  let empty_o := get_empty_points s.board
  undoAll (openFourLoop size player s empty_o) empty_o

/-- The inner loop of blockOpenFour (lines 349-354). -/
def blockOpenFourInner (size player eO : Nat) (s : PState) :
    List Nat → PState
  | [] => s
  | e :: rest =>
    let s := (play_moveP s e player).2
    let result5 := detect_five_in_a_row size s.board
    let s := if result5 == player && !(s.moves.contains eO) then
      { s with moves := s.moves ++ [eO] } else s
    let s := set_colorP s 0 e
    blockOpenFourInner size player eO s rest

/-- The outer loop of blockOpenFour (lines 344-355): play each empty point,
and when the four-detector reports the player, search completions with the
inner loop; undo the point at the end of each iteration. -/
def blockOpenFourLoop (size player : Nat) (s : PState) : List Nat → PState
  | [] => s
  | eO :: rest =>
    let s := (play_moveP s eO player).2
    let result4 := detect_four_in_a_row size s.board
    let s := if result4 == player then
      blockOpenFourInner size player eO s (get_empty_points s.board) else s
    let s := set_colorP s 0 eO
    blockOpenFourLoop size player s rest

/-- blockOpenFour (lines 342-355): the BlockOpenFour rule. -/
def blockOpenFour (size player : Nat) (s : PState) : PState :=
  blockOpenFourLoop size player s (get_empty_points s.board)

/-- One walk of the shuffled empty list inside a trial of random (lines
281-288): append the cell to the temp list when that list is still empty,
play the cell for the walking player, and whenever the detector reports the
mover or nothing record the first cell of the trial; the walking player is
flipped after every cell. -/
def trialWalk (size current_player : Nat) (player : Nat) (s : PState)
    (cells movesTemp final_moves : List Nat) : PState × Nat × List Nat :=
  match cells with
  | [] => (s, player, final_moves)
  | e :: rest =>
    let movesTemp := if movesTemp.length == 0 then movesTemp ++ [e]
                     else movesTemp
    let s := (play_moveP s e player).2
    let result := detect_five_in_a_row size s.board
    let final_moves := if result == current_player || result == 0 then
      final_moves ++ [movesTemp.headD 0] else final_moves
    trialWalk size current_player (opponent player) s rest movesTemp
      final_moves

/-- The trials loop of random (lines 279-292).  The walking player is NOT
reset between trials: the value left by one trial seeds the next.  The last
component records, as a ghost observation, the player holding the walk at
the start of each trial (the mutating behavior is unchanged). -/
def randomTrials (size current_player : Nat) (shuffled : List Nat) :
    Nat → Nat → PState → List Nat → PState × Nat × List Nat × List Nat
  | 0, player, s, final_moves => (s, player, final_moves, [])
  | n + 1, player, s, final_moves =>
    let ws := trialWalk size current_player player s shuffled [] final_moves
    let s := undoAll ws.1 shuffled
    let rs := randomTrials size current_player shuffled n ws.2.1 s ws.2.2
    (rs.1, rs.2.1, rs.2.2.1, player :: rs.2.2.2)

/-- random (lines 273-296): N rollout trials over a shuffled copy of the
empty points.  np.random.shuffle is modelled by passing the shuffled list
explicitly; Python's list(set(final_moves)) (whose order is unspecified) is
modelled as dedup keeping first occurrences. -/
def randomRollout (size N : Nat) (s : PState) (shuffled : List Nat) :
    List Nat × PState :=
  let current_player := s.current_player
  let rs := randomTrials size current_player shuffled N current_player s []
  (rs.2.2.1.dedup, rs.1)

/-- The ghost trial-start observations of a randomRollout run: the player
holding the walk at the start of each of the N trials. -/
def randomTrialStarts (size N : Nat) (s : PState) (shuffled : List Nat) :
    List Nat :=
  (randomTrials size s.current_player shuffled N s.current_player s []).2.2.2

/-- rule_based (lines 357-388): the priority cascade Win, BlockWin,
OpenFour, BlockOpenFour, Random; the first rule leaving self.moves
non-empty gives the returned action name and candidate list. -/
def rule_based (size N : Nat) (s : PState) (shuffled : List Nat) :
    (String × List Nat) × PState :=
  let current_player := s.current_player
  let opponent_player := opponent current_player
  let s1 := win size current_player s
  if s1.moves.length != 0 then (( "Win", s1.moves), s1)
  else
    let s2 := win size opponent_player s1
    if s2.moves.length != 0 then (( "BlockWin", s2.moves), s2)
    else
      let s3 := openFour size current_player s2
      if s3.moves.length != 0 then (( "OpenFour", s3.moves), s3)
      else
        let s4 := blockOpenFour size opponent_player s3
        if s4.moves.length != 0 then (( "BlockOpenFour", s4.moves), s4)
        else
          let ms := randomRollout size N s4 shuffled
          (( "Random", ms.1), ms.2)

/-- The decide entry point of the Policy Engine (spec sect. 6), as realized
by policy_moves_cmd (lines 390-441): reset self.moves, then dispatch on the
configured policy name; "rule_based" runs the cascade, "random" runs the
rollout with action name "Random". -/
def decidePolicy (size N : Nat) (s : PState) (policy : String)
    (shuffled : List Nat) : (String × List Nat) × PState :=
  let s := { s with moves := [] }
  if policy == "rule_based" then rule_based size N s shuffled
  else if policy == "random" then
    let ms := randomRollout size N s shuffled
    (( "Random", ms.1), ms.2)
  else (( "", []), s)

/-- Build a board from a row-major list of rows (row 1 first), for concrete
test positions. -/
def rowsBoard (size : Nat) (rows : List (List Nat)) : List Nat :=
  mkBoard size (fun p =>
    (rows.getD (p / (size + 1) - 1) []).getD (p % (size + 1) - 1) 0)

/-- A full 5x5 board, every interior cell BLACK: no empty point remains and
the detector reports BLACK. -/
def fullBlackBoard : List Nat := mkBoard 5 (fun _ => 1)

/-- Solver state on the full black board, black to move, clock not expired. -/
def sFullBlack : SState := ⟨fullBlackBoard, 1, "unknown", [], [], [false]⟩

/-- A 5x5 board, every interior cell WHITE except point 7 (row 1, col 1),
which is empty: white already has five in a row. -/
def whiteWallBoard : List Nat := mkBoard 5 (fun p => if p == 7 then 0 else 2)

/-- Solver state on whiteWallBoard, black to move, clock not expired. -/
def sWhiteWall : SState := ⟨whiteWallBoard, 1, "unknown", [], [], [false]⟩

/-- Solver state whose next clock reading reports the deadline exceeded,
with the shared winner currently "w" (as after a primary pass that found
white winning). -/
def sTimeUp : SState := ⟨fullBlackBoard, 1, "w", [], [], [true]⟩

/-- A full 2x2 board with no five-in-a-row (the detector reports 0). -/
def fullTwoBoard : List Nat := rowsBoard 2 [[1, 2], [2, 1]]

/-- Solver state on the full 2x2 board with a non-empty shared move
accumulator (the accumulator is a class attribute that persists across
commands), black to move, clock not expired. -/
def sFullTwo : SState := ⟨fullTwoBoard, 1, "unknown", [4], [], [false, false]⟩

/-- A 5x5 policy position: black B1 A1-D1 (points 7-10), point 11 empty and
completing black's five, every other interior cell filled with no
five-in-a-row anywhere. -/
def winInOneBoard : List Nat :=
  rowsBoard 5 [[1, 1, 1, 1, 0], [2, 2, 1, 2, 2], [1, 1, 2, 1, 1],
               [2, 2, 1, 2, 2], [1, 1, 2, 1, 1]]

/-- Policy state on winInOneBoard, black to move. -/
def sWinInOne : PState := ⟨winInOneBoard, 1, []⟩

/-- A 2x2 board with exactly one empty point (point 8), so the rollout's
shuffled empty list has odd length. -/
def oneEmptyBoard : List Nat := rowsBoard 2 [[1, 2], [2, 0]]

/-- Policy state on oneEmptyBoard, black to move. -/
def sOneEmpty : PState := ⟨oneEmptyBoard, 1, []⟩

/-- The player that holds an alternating walk after n flips starting from p. -/
def altPlayer (p n : Nat) : Nat := if n % 2 == 0 then p else opponent p

/-!  Basic facts about cells of the linear board store. -/

theorem cell_set_self (l : List Nat) (p a : Nat) (h : p < l.length) :
    cell (l.set p a) p = a := by
  induction l generalizing p with
  | nil => simp at h
  | cons x xs ih =>
    cases p with
    | zero => simp [cell, List.getD]
    | succ q =>
      simp only [List.set, cell, List.getD_cons_succ]
      exact ih q (by simpa using h)

theorem cell_set_other (l : List Nat) (p q a : Nat) (h : p ≠ q) :
    cell (l.set p a) q = cell l q := by
  induction l generalizing p q with
  | nil => simp [cell, List.set]
  | cons x xs ih =>
    cases p with
    | zero =>
      cases q with
      | zero => exact absurd rfl h
      | succ r => simp [cell, List.set, List.getD_cons_succ]
    | succ p' =>
      cases q with
      | zero => simp [cell, List.set, List.getD_cons_zero]
      | succ r =>
        simp only [List.set, cell, List.getD_cons_succ]
        exact ih p' r (fun hc => h (by rw [hc]))

theorem set_cell_eq_self (l : List Nat) (p : Nat) (h : cell l p = EMPTY) :
    l.set p EMPTY = l := by
  induction l generalizing p with
  | nil => simp [List.set]
  | cons x xs ih =>
    cases p with
    | zero => simp_all [cell, List.getD_cons_zero]
    | succ q =>
      simp only [cell, List.getD_cons_succ] at h
      simp [List.set, ih q h]

theorem lt_length_of_cell_empty (l : List Nat) (p : Nat)
    (h : cell l p = EMPTY) : p < l.length := by
  by_contra hge
  have hB : cell l p = BORDER := by
    simp only [cell]
    exact List.getD_eq_default _ _ (by omega)
  rw [h] at hB
  simp [EMPTY, BORDER] at hB

theorem list_eq_of_cell (a b : List Nat) (hl : a.length = b.length)
    (h : ∀ p, cell a p = cell b p) : a = b := by
  induction a generalizing b with
  | nil => cases b with
    | nil => rfl
    | cons y ys => simp at hl
  | cons x xs ih =>
    cases b with
    | nil => simp at hl
    | cons y ys =>
      have h0 := h 0
      simp only [cell, List.getD_cons_zero] at h0
      have ht : xs = ys := by
        refine ih ys (by simpa using hl) (fun p => ?_)
        have := h (p + 1)
        simpa [cell, List.getD_cons_succ] using this
      rw [h0, ht]

theorem mem_get_empty_points (b : List Nat) (p : Nat) :
    p ∈ get_empty_points b ↔ p < b.length ∧ cell b p = EMPTY := by
  simp [get_empty_points, List.mem_filter, List.mem_range]

/-!  Board restoration by the policy rule functions. -/

theorem play_moveP_board_of_empty (s : PState) (pos color : Nat)
    (h : cell s.board pos = EMPTY) :
    (play_moveP s pos color).2.board = s.board.set pos color := by
  simp [play_moveP, h]

theorem winLoop_board (size player : Nat) :
    ∀ (es : List Nat) (s : PState), (∀ e ∈ es, cell s.board e = EMPTY) →
    (winLoop size player s es).board = s.board := by
  intro es
  induction es with
  | nil => intro s _; rfl
  | cons e rest ih =>
    intro s h
    have he : cell s.board e = EMPTY := h e (by simp)
    have hplay : (play_moveP s e player).2.board = s.board.set e player :=
      play_moveP_board_of_empty s e player he
    simp only [winLoop]
    set s1 := (play_moveP s e player).2 with hs1
    set s2 := if detect_five_in_a_row size s1.board == player
              then { s1 with moves := s1.moves ++ [e] } else s1 with hs2
    have hs2b : s2.board = s1.board := by
      rw [hs2]; split <;> rfl
    have hs3 : (set_colorP s2 0 e).board = s.board := by
      simp only [set_colorP]
      rw [hs2b, hplay, List.set_set]
      exact set_cell_eq_self s.board e he
    rw [ih (set_colorP s2 0 e) ?_, hs3]
    intro e' he'
    rw [hs3]
    exact h e' (by simp [he'])

theorem win_board (size player : Nat) (s : PState) :
    (win size player s).board = s.board := by
  refine winLoop_board size player (get_empty_points s.board) s ?_
  intro e he
  exact ((mem_get_empty_points s.board e).1 he).2

theorem win_modifiedLoop_spec (size player : Nat) :
    ∀ (es : List Nat) (s : PState), (∀ e ∈ es, cell s.board e = EMPTY) →
    (win_modifiedLoop size player s es).2.board = s.board ∧
    (∀ m, (win_modifiedLoop size player s es).1 = some m → m ∈ es) := by
  intro es
  induction es with
  | nil => intro s _; exact ⟨rfl, by intro m hm; simp [win_modifiedLoop] at hm⟩
  | cons e rest ih =>
    intro s h
    have he : cell s.board e = EMPTY := h e (by simp)
    have hplay : (play_moveP s e player).2.board = s.board.set e player :=
      play_moveP_board_of_empty s e player he
    simp only [win_modifiedLoop]
    set s1 := (play_moveP s e player).2 with hs1
    have hs3 : (set_colorP s1 0 e).board = s.board := by
      simp only [set_colorP]
      rw [hplay, List.set_set]
      exact set_cell_eq_self s.board e he
    by_cases hr : (detect_five_in_a_row size s1.board == player) = true
    · rw [if_pos hr]
      exact ⟨hs3, by intro m hm; simp at hm; simp [hm]⟩
    · rw [if_neg hr]
      have hpre : ∀ e' ∈ rest, cell (set_colorP s1 0 e).board e' = EMPTY := by
        intro e' he'
        rw [hs3]
        exact h e' (by simp [he'])
      refine ⟨by rw [(ih (set_colorP s1 0 e) hpre).1, hs3], ?_⟩
      intro m hm
      exact List.mem_cons_of_mem e ((ih (set_colorP s1 0 e) hpre).2 m hm)

theorem win_modified_spec (size player : Nat) (s : PState) :
    (win_modified size player s).2.board = s.board ∧
    (∀ m, (win_modified size player s).1 = some m →
      cell s.board m = EMPTY) := by
  have hpre : ∀ e ∈ get_empty_points s.board, cell s.board e = EMPTY := by
    intro e he
    exact ((mem_get_empty_points s.board e).1 he).2
  have h := win_modifiedLoop_spec size player (get_empty_points s.board) s hpre
  exact ⟨h.1, fun m hm => hpre m (h.2 m hm)⟩

theorem blockOpenFourInner_board (size player eO : Nat) :
    ∀ (es : List Nat) (s : PState), (∀ e ∈ es, cell s.board e = EMPTY) →
    (blockOpenFourInner size player eO s es).board = s.board := by
  intro es
  induction es with
  | nil => intro s _; rfl
  | cons e rest ih =>
    intro s h
    have he : cell s.board e = EMPTY := h e (by simp)
    have hplay : (play_moveP s e player).2.board = s.board.set e player :=
      play_moveP_board_of_empty s e player he
    simp only [blockOpenFourInner]
    set s1 := (play_moveP s e player).2 with hs1
    set s2 := if (detect_five_in_a_row size s1.board == player &&
                  !(s1.moves.contains eO)) = true
              then { s1 with moves := s1.moves ++ [eO] } else s1 with hs2
    have hs2b : s2.board = s1.board := by
      rw [hs2]; split <;> rfl
    have hs3 : (set_colorP s2 0 e).board = s.board := by
      simp only [set_colorP]
      rw [hs2b, hplay, List.set_set]
      exact set_cell_eq_self s.board e he
    rw [ih (set_colorP s2 0 e) ?_, hs3]
    intro e' he'
    rw [hs3]
    exact h e' (by simp [he'])

theorem blockOpenFourLoop_board (size player : Nat) :
    ∀ (es : List Nat) (s : PState), (∀ e ∈ es, cell s.board e = EMPTY) →
    (blockOpenFourLoop size player s es).board = s.board := by
  intro es
  induction es with
  | nil => intro s _; rfl
  | cons eO rest ih =>
    intro s h
    have he : cell s.board eO = EMPTY := h eO (by simp)
    have hplay : (play_moveP s eO player).2.board = s.board.set eO player :=
      play_moveP_board_of_empty s eO player he
    simp only [blockOpenFourLoop]
    set s1 := (play_moveP s eO player).2 with hs1
    set s2 := if (detect_four_in_a_row size s1.board == player) = true
              then blockOpenFourInner size player eO s1
                     (get_empty_points s1.board) else s1 with hs2
    have hs2b : s2.board = s1.board := by
      rw [hs2]
      split
      · exact blockOpenFourInner_board size player eO
          (get_empty_points s1.board) s1
          (fun e' he' => ((mem_get_empty_points s1.board e').1 he').2)
      · rfl
    have hs3 : (set_colorP s2 0 eO).board = s.board := by
      simp only [set_colorP]
      rw [hs2b, hplay, List.set_set]
      exact set_cell_eq_self s.board eO he
    rw [ih (set_colorP s2 0 eO) ?_, hs3]
    intro e' he'
    rw [hs3]
    exact h e' (by simp [he'])

theorem blockOpenFour_board (size player : Nat) (s : PState) :
    (blockOpenFour size player s).board = s.board :=
  blockOpenFourLoop_board size player (get_empty_points s.board) s
    (fun e he => ((mem_get_empty_points s.board e).1 he).2)

/-!  openFour mutates several cells per iteration and only cleans up with a
final sweep, so its restoration argument uses an invariant: throughout the
outer loop the board agrees with the original board B on every point outside
the original empty list (and keeps its length); the final sweep then resets
exactly the original empty points. -/

theorem cell_empty_mem_original (B b : List Nat) (hlen : b.length = B.length)
    (hoff : ∀ p, p ∉ get_empty_points B → cell b p = cell B p)
    (q : Nat) (hq : cell b q = EMPTY) : q ∈ get_empty_points B := by
  by_contra hnq
  have hBq : cell b q = cell B q := hoff q hnq
  have hlt : q < b.length := lt_length_of_cell_empty b q hq
  exact hnq ((mem_get_empty_points B q).2 ⟨hlen ▸ hlt, by rw [← hBq, hq]⟩)

theorem off_set (B b : List Nat) (q a : Nat) (hq : q ∈ get_empty_points B)
    (hoff : ∀ p, p ∉ get_empty_points B → cell b p = cell B p) :
    ∀ p, p ∉ get_empty_points B → cell (b.set q a) p = cell B p := by
  intro p hp
  rw [cell_set_other b q p a (fun hc => hp (hc ▸ hq))]
  exact hoff p hp

theorem off_play (B : List Nat) (s : PState) (pos color : Nat)
    (hlen : s.board.length = B.length)
    (hoff : ∀ p, p ∉ get_empty_points B → cell s.board p = cell B p) :
    (play_moveP s pos color).2.board.length = B.length ∧
    ∀ p, p ∉ get_empty_points B →
      cell (play_moveP s pos color).2.board p = cell B p := by
  by_cases h : cell s.board pos = EMPTY
  · rw [play_moveP_board_of_empty s pos color h]
    exact ⟨by rw [List.length_set, hlen],
           off_set B s.board pos color
             (cell_empty_mem_original B s.board hlen hoff pos h) hoff⟩
  · have : (play_moveP s pos color).2 = s := by simp [play_moveP, h]
    rw [this]
    exact ⟨hlen, hoff⟩

theorem off_set_colorP (B : List Nat) (s : PState) (q : Nat)
    (hq : q ∈ get_empty_points B) (hlen : s.board.length = B.length)
    (hoff : ∀ p, p ∉ get_empty_points B → cell s.board p = cell B p) :
    (set_colorP s 0 q).board.length = B.length ∧
    ∀ p, p ∉ get_empty_points B →
      cell (set_colorP s 0 q).board p = cell B p := by
  refine ⟨by simp [set_colorP, List.length_set, hlen], ?_⟩
  exact off_set B s.board q 0 hq hoff

theorem openFourInner_off (size player m eO : Nat) (B : List Nat) :
    ∀ (es : List Nat) (s : PState), (∀ e ∈ es, e ∈ get_empty_points B) →
    m ∈ get_empty_points B → eO ∈ get_empty_points B →
    s.board.length = B.length →
    (∀ p, p ∉ get_empty_points B → cell s.board p = cell B p) →
    (openFourInner size player m eO s es).board.length = B.length ∧
    ∀ p, p ∉ get_empty_points B →
      cell (openFourInner size player m eO s es).board p = cell B p := by
  intro es
  induction es with
  | nil => intro s _ _ _ hlen hoff; exact ⟨hlen, hoff⟩
  | cons e rest ih =>
    intro s hes hm heO hlen hoff
    have he : e ∈ get_empty_points B := hes e (by simp)
    simp only [openFourInner]
    have h1 := off_play B s e player hlen hoff
    have h2 := off_set_colorP B (play_moveP s e player).2 e he h1.1 h1.2
    have h3 := off_set_colorP B _ m hm h2.1 h2.2
    have h4 := off_set_colorP B _ eO heO h3.1 h3.2
    set s4 := set_colorP (set_colorP (set_colorP (play_moveP s e player).2
      0 e) 0 m) 0 eO with hs4
    set s5 := if (detect_five_in_a_row size
        (play_moveP s e player).2.board == player) = true
      then { s4 with moves := s4.moves ++ [eO] } else s4 with hs5
    have hb5 : s5.board = s4.board := by rw [hs5]; split <;> rfl
    refine ih s5 (fun e' he' => hes e' (by simp [he'])) hm heO ?_ ?_
    · rw [hb5]; exact h4.1
    · intro p hp
      rw [hb5]
      exact h4.2 p hp

theorem openFourLoop_off (size player : Nat) (B : List Nat) :
    ∀ (es : List Nat) (s : PState), (∀ e ∈ es, e ∈ get_empty_points B) →
    s.board.length = B.length →
    (∀ p, p ∉ get_empty_points B → cell s.board p = cell B p) →
    (openFourLoop size player s es).board.length = B.length ∧
    ∀ p, p ∉ get_empty_points B →
      cell (openFourLoop size player s es).board p = cell B p := by
  intro es
  induction es with
  | nil => intro s _ hlen hoff; exact ⟨hlen, hoff⟩
  | cons eO rest ih =>
    intro s hes hlen hoff
    have heO : eO ∈ get_empty_points B := hes eO (by simp)
    simp only [openFourLoop]
    have h1 := off_play B s eO player hlen hoff
    set s1 := (play_moveP s eO player).2 with hs1
    have hwm := win_modified_spec size player s1
    have h2 : (win_modified size player s1).2.board.length = B.length ∧
        ∀ p, p ∉ get_empty_points B →
          cell (win_modified size player s1).2.board p = cell B p := by
      rw [hwm.1]; exact h1
    set ms := win_modified size player s1 with hms
    have hstep : ∀ t : PState, t.board.length = B.length →
        (∀ p, p ∉ get_empty_points B → cell t.board p = cell B p) →
        (match ms.1 with
          | some m =>
            openFourInner size player m eO
              ((play_moveP ms.2 m (opponent player)).2)
              (get_empty_points (play_moveP ms.2 m (opponent player)).2.board)
          | none => ms.2) = t → True := fun _ _ _ _ => trivial
    clear hstep
    cases hmv : ms.1 with
    | none =>
      simp only [hmv]
      exact ih ms.2 (fun e' he' => hes e' (by simp [he'])) h2.1 h2.2
    | some m =>
      simp only [hmv]
      have hmE : m ∈ get_empty_points B := by
        have hm1 : cell s1.board m = EMPTY := hwm.2 m (hms ▸ hmv)
        have : cell ms.2.board m = EMPTY := by rw [hwm.1]; exact hm1
        exact cell_empty_mem_original B ms.2.board h2.1 h2.2 m this
      have h3 := off_play B ms.2 m (opponent player) h2.1 h2.2
      set s2 := (play_moveP ms.2 m (opponent player)).2 with hs2
      have hinner := openFourInner_off size player m eO B
        (get_empty_points s2.board) s2
        (fun e' he' => cell_empty_mem_original B s2.board h3.1 h3.2 e'
          ((mem_get_empty_points s2.board e').1 he').2)
        hmE heO h3.1 h3.2
      exact ih _ (fun e' he' => hes e' (by simp [he'])) hinner.1 hinner.2

theorem undoAll_length (es : List Nat) :
    ∀ (s : PState), (undoAll s es).board.length = s.board.length := by
  induction es with
  | nil => intro s; rfl
  | cons e rest ih =>
    intro s
    show (undoAll (set_colorP s 0 e) rest).board.length = s.board.length
    rw [ih (set_colorP s 0 e)]
    simp [set_colorP, List.length_set]

theorem undoAll_cell_not_mem (es : List Nat) :
    ∀ (s : PState) (p : Nat), p ∉ es →
    cell (undoAll s es).board p = cell s.board p := by
  induction es with
  | nil => intro s p _; rfl
  | cons e rest ih =>
    intro s p hp
    show cell (undoAll (set_colorP s 0 e) rest).board p = cell s.board p
    rw [ih (set_colorP s 0 e) p (fun h => hp (by simp [h]))]
    simp only [set_colorP]
    exact cell_set_other s.board e p 0 (fun h => hp (by simp [h]))

theorem undoAll_cell_mem (es : List Nat) :
    ∀ (s : PState) (p : Nat), p ∈ es → p < s.board.length →
    cell (undoAll s es).board p = EMPTY := by
  induction es with
  | nil => intro s p hp _; simp at hp
  | cons e rest ih =>
    intro s p hp hlt
    show cell (undoAll (set_colorP s 0 e) rest).board p = EMPTY
    by_cases hpr : p ∈ rest
    · exact ih (set_colorP s 0 e) p hpr
        (by simpa [set_colorP, List.length_set] using hlt)
    · have hpe : p = e := by
        rcases List.mem_cons.1 hp with h | h
        · exact h
        · exact absurd h hpr
      rw [undoAll_cell_not_mem rest (set_colorP s 0 e) p hpr]
      subst hpe
      simp only [set_colorP]
      exact cell_set_self s.board p 0 hlt

theorem openFour_board (size player : Nat) (s : PState) :
    (openFour size player s).board = s.board := by
  have hES : ∀ e ∈ get_empty_points s.board, e ∈ get_empty_points s.board :=
    fun e he => he
  have hloop := openFourLoop_off size player s.board
    (get_empty_points s.board) s hES rfl (fun p _ => rfl)
  set t := openFourLoop size player s (get_empty_points s.board) with ht
  have hopen : openFour size player s = undoAll t (get_empty_points s.board) := by
    rw [ht]; rfl
  rw [hopen]
  refine list_eq_of_cell _ _ ?_ ?_
  · rw [undoAll_length]
    exact hloop.1
  · intro p
    by_cases hp : p ∈ get_empty_points s.board
    · have hmem := (mem_get_empty_points s.board p).1 hp
      rw [undoAll_cell_mem (get_empty_points s.board) t p hp
        (by rw [hloop.1]; exact hmem.1), hmem.2]
    · rw [undoAll_cell_not_mem (get_empty_points s.board) t p hp]
      exact hloop.2 p hp

/-!  Board restoration by the random rollout: each trial plays along the
shuffled list (only ever writing cells that were empty originally) and then
resets every cell of the shuffled list. -/

theorem trialWalk_off (size cp : Nat) (B : List Nat) :
    ∀ (cells : List Nat) (player : Nat) (s : PState)
      (mt fm : List Nat), s.board.length = B.length →
    (∀ p, p ∉ get_empty_points B → cell s.board p = cell B p) →
    (trialWalk size cp player s cells mt fm).1.board.length = B.length ∧
    ∀ p, p ∉ get_empty_points B →
      cell (trialWalk size cp player s cells mt fm).1.board p = cell B p := by
  intro cells
  induction cells with
  | nil => intro player s mt fm hlen hoff; exact ⟨hlen, hoff⟩
  | cons e rest ih =>
    intro player s mt fm hlen hoff
    simp only [trialWalk]
    have h1 := off_play B s e player hlen hoff
    exact ih (opponent player) _ _ _ h1.1 h1.2

theorem trial_restores (size cp player : Nat) (shuffled : List Nat)
    (s : PState) (hmem : ∀ e, e ∈ shuffled ↔ e ∈ get_empty_points s.board)
    (mt fm : List Nat) :
    (undoAll (trialWalk size cp player s shuffled mt fm).1 shuffled).board
      = s.board := by
  have hoff := trialWalk_off size cp s.board shuffled player s mt fm rfl
    (fun p _ => rfl)
  set t := (trialWalk size cp player s shuffled mt fm).1 with ht
  refine list_eq_of_cell _ _ ?_ ?_
  · rw [undoAll_length]; exact hoff.1
  · intro p
    by_cases hp : p ∈ shuffled
    · have hpE := (hmem p).1 hp
      have hmemE := (mem_get_empty_points s.board p).1 hpE
      rw [undoAll_cell_mem shuffled t p hp (by rw [hoff.1]; exact hmemE.1),
        hmemE.2]
    · rw [undoAll_cell_not_mem shuffled t p hp]
      exact hoff.2 p (fun hpE => hp ((hmem p).2 hpE))

theorem randomTrials_board (size cp : Nat) (shuffled : List Nat) :
    ∀ (N player : Nat) (s : PState) (fm : List Nat),
    (∀ e, e ∈ shuffled ↔ e ∈ get_empty_points s.board) →
    (randomTrials size cp shuffled N player s fm).1.board = s.board := by
  intro N
  induction N with
  | zero => intro player s fm _; rfl
  | succ n ih =>
    intro player s fm hmem
    simp only [randomTrials]
    set ws := trialWalk size cp player s shuffled [] fm with hws
    have hres : (undoAll ws.1 shuffled).board = s.board :=
      trial_restores size cp player shuffled s hmem [] fm
    rw [ih ws.2.1 (undoAll ws.1 shuffled) ws.2.2 (by rw [hres]; exact hmem)]
    exact hres

theorem randomRollout_board (size N : Nat) (s : PState)
    (shuffled : List Nat)
    (h : shuffled.Perm (get_empty_points s.board)) :
    (randomRollout size N s shuffled).2.board = s.board := by
  simp only [randomRollout]
  exact randomTrials_board size s.current_player shuffled N
    s.current_player s [] (fun e => h.mem_iff)

/-!  Board restoration by the primary solver searches. -/

theorem play_move_of_empty (s : SState) (pos color : Nat)
    (h : cell s.board pos = EMPTY) :
    (play_move s pos color).2 = { s with board := s.board.set pos color,
                                         current_player := opponent color } := by
  simp [play_move, h]

theorem orChild_board (size : Nat) (s : SState) (pt : Nat)
    (h : cell s.board pt = EMPTY) :
    (orChild size s pt).board = s.board.set pt s.current_player := by
  simp only [orChild, play_move, h, ne_eq, not_true_eq_false, if_false]
  split <;> split <;> rfl

theorem andChild_board (size : Nat) (s : SState) (pt : Nat)
    (h : cell s.board pt = EMPTY) :
    (andChild size s pt).board = s.board.set pt s.current_player := by
  simp only [andChild, play_move, h, ne_eq, not_true_eq_false, if_false]
  split <;> split <;> rfl

theorem minimax_board (size : Nat) : ∀ fuel,
    ((∀ s, (minimaxBooleanOR size fuel s).2.board = s.board) ∧
     (∀ s, (minimaxBooleanAND size fuel s).2.board = s.board)) ∧
    ((∀ s es, (∀ e ∈ es, cell s.board e = EMPTY) →
        (orLoop size fuel s es).2.board = s.board) ∧
     (∀ s es, (∀ e ∈ es, cell s.board e = EMPTY) →
        (andLoop size fuel s es).2.board = s.board)) := by
  intro fuel
  induction fuel with
  | zero =>
    refine ⟨⟨fun s => rfl, fun s => rfl⟩, ?_, ?_⟩ <;>
      (intro s es _; cases es <;> rfl)
  | succ n ih =>
    have hpre : ∀ s : SState, ∀ e ∈ get_empty_points s.board,
        cell s.board e = EMPTY :=
      fun s e he => ((mem_get_empty_points s.board e).1 he).2
    refine ⟨⟨?_, ?_⟩, ?_, ?_⟩
    · intro s
      rcases hso : s.oracle with _ | ⟨t, rest⟩
      · simp only [minimaxBooleanOR, tick, hso]
        by_cases hemp : ((get_empty_points s.board).length == 0) = true
        · rw [if_neg (by simp), if_pos hemp]
          split <;> split <;> rfl
        · rw [if_neg (by simp), if_neg hemp]
          exact ih.2.1 s (get_empty_points s.board) (hpre s)
      · simp only [minimaxBooleanOR, tick, hso]
        cases t with
        | true => rfl
        | false =>
          set s1 : SState := { s with oracle := rest } with hs1
          by_cases hemp : ((get_empty_points s1.board).length == 0) = true
          · rw [if_neg (by simp), if_pos hemp]
            split <;> split <;> rfl
          · rw [if_neg (by simp), if_neg hemp]
            exact ih.2.1 s1 (get_empty_points s1.board) (hpre s1)
    · intro s
      rcases hso : s.oracle with _ | ⟨t, rest⟩
      · simp only [minimaxBooleanAND, tick, hso]
        by_cases hemp : ((get_empty_points s.board).length == 0) = true
        · rw [if_neg (by simp), if_pos hemp]
          split <;> split <;> split <;> rfl
        · rw [if_neg (by simp), if_neg hemp]
          exact ih.2.2 s (get_empty_points s.board) (hpre s)
      · simp only [minimaxBooleanAND, tick, hso]
        cases t with
        | true => rfl
        | false =>
          set s1 : SState := { s with oracle := rest } with hs1
          by_cases hemp : ((get_empty_points s1.board).length == 0) = true
          · rw [if_neg (by simp), if_pos hemp]
            split <;> split <;> split <;> rfl
          · rw [if_neg (by simp), if_neg hemp]
            exact ih.2.2 s1 (get_empty_points s1.board) (hpre s1)
    · intro s es h
      cases es with
      | nil => rfl
      | cons pt rest =>
        have hpt : cell s.board pt = EMPTY := h pt (by simp)
        simp only [orLoop]
        set s1 := orChild size s pt with hs1
        set rs := minimaxBooleanAND size n s1 with hrs
        have hb : (set_color rs.2 0 pt).board = s.board := by
          simp only [set_color]
          rw [hrs, ih.1.2 s1, hs1, orChild_board size s pt hpt, List.set_set]
          exact set_cell_eq_self s.board pt hpt
        by_cases hbr : (rs.1 == "w" || rs.1 == "b") = true
        · rw [if_pos hbr]
          exact hb
        · rw [if_neg hbr]
          by_cases hre : rest.isEmpty = true
          · rw [if_pos hre]
            exact hb
          · rw [if_neg hre]
            have hp2 : ∀ e ∈ rest, cell (set_color rs.2 0 pt).board e = EMPTY := by
              intro e' he'
              rw [hb]
              exact h e' (by simp [he'])
            rw [ih.2.1 (set_color rs.2 0 pt) rest hp2, hb]
    · intro s es h
      cases es with
      | nil => rfl
      | cons pt rest =>
        have hpt : cell s.board pt = EMPTY := h pt (by simp)
        simp only [andLoop]
        set s1 := andChild size s pt with hs1
        set rs := minimaxBooleanOR size n s1 with hrs
        have hb : (set_color rs.2 0 pt).board = s.board := by
          simp only [set_color]
          rw [hrs, ih.1.1 s1, hs1, andChild_board size s pt hpt, List.set_set]
          exact set_cell_eq_self s.board pt hpt
        by_cases hbr : (rs.1 == "b" || rs.1 == "w") = true
        · rw [if_pos hbr]
          exact hb
        · rw [if_neg hbr]
          by_cases hre : rest.isEmpty = true
          · rw [if_pos hre]
            exact hb
          · rw [if_neg hre]
            have hp2 : ∀ e ∈ rest, cell (set_color rs.2 0 pt).board e = EMPTY := by
              intro e' he'
              rw [hb]
              exact h e' (by simp [he'])
            rw [ih.2.2 (set_color rs.2 0 pt) rest hp2, hb]

/-!  Claim theorems. -/

/-- C1: the spec says both primary searches resolve a full board via
detectFiveInRow as BLACK_WINS / WHITE_WINS / DRAW.  The white search does,
but the black search minimaxBooleanOR has a dangling else ( "if result == 2
... else winner = draw") that overwrites its own "b" assignment: on a full
board whose detector reports BLACK it returns "draw".  This theorem
evaluates the code at the failing input: the full 5x5 all-black board with
no empty cells, black to move, deadline not reached. -/
theorem C1_leaf_resolution_bug :
    get_empty_points sFullBlack.board = [] ∧
    detect_five_in_a_row 5 sFullBlack.board = BLACK ∧
    (minimaxBooleanOR 5 1 sFullBlack).1 = "draw" ∧
    (minimaxBooleanAND 5 1 sFullBlack).1 = "b" :=
  ⟨rfl, rfl, rfl, rfl⟩

/-- C2 (amended): on an entry whose clock reading reports the deadline
reached, the primary searches return "unknown" immediately (only the oracle
and winner fields change, no child move is tried); the rescue searches also
return immediately but yield the current value of the shared winner field,
not "unknown". -/
theorem C2_deadline_entry (size fuel : Nat) (s : SState) (t : List Bool)
    (hor : s.oracle = true :: t) (hfuel : 0 < fuel) :
    minimaxBooleanOR size fuel s =
      ( "unknown", { s with oracle := t, winner := "unknown" }) ∧
    minimaxBooleanAND size fuel s =
      ( "unknown", { s with oracle := t, winner := "unknown" }) ∧
    minimaxBooleanOR_modified size fuel s = (s.winner, { s with oracle := t }) ∧
    minimaxBooleanAND_modified size fuel s = (s.winner, { s with oracle := t }) := by
  obtain ⟨f, rfl⟩ : ∃ f, fuel = f + 1 := ⟨fuel - 1, by omega⟩
  refine ⟨?_, ?_, ?_, ?_⟩ <;>
    simp [minimaxBooleanOR, minimaxBooleanAND, minimaxBooleanOR_modified,
      minimaxBooleanAND_modified, tick, hor]

/-- C2 witness: the amended theorem evaluated at a concrete state whose next
clock reading reports the deadline reached and whose shared winner is "w". -/
theorem C2_deadline_entry_witness :
    minimaxBooleanOR 5 1 sTimeUp =
      ( "unknown", { sTimeUp with oracle := [], winner := "unknown" }) ∧
    minimaxBooleanAND 5 1 sTimeUp =
      ( "unknown", { sTimeUp with oracle := [], winner := "unknown" }) ∧
    minimaxBooleanOR_modified 5 1 sTimeUp = ( "w", { sTimeUp with oracle := [] }) ∧
    minimaxBooleanAND_modified 5 1 sTimeUp = ( "w", { sTimeUp with oracle := [] }) :=
  C2_deadline_entry 5 1 sTimeUp [] rfl (by decide)

/-- C2 counterexample: the claim as stated says every recursive procedure,
the rescue pair included, returns "unknown" when entered past the deadline;
on the concrete state sTimeUp (deadline reached, shared winner "w") the
rescue search minimaxBooleanOR_modified returns "w". -/
theorem C2_counterexample :
    sTimeUp.oracle = [true] ∧
    (minimaxBooleanOR_modified 5 1 sTimeUp).1 = "w" ∧
    (minimaxBooleanOR_modified 5 1 sTimeUp).1 ≠ "unknown" :=
  ⟨rfl, rfl, by decide⟩

/-- C3: in both primary loops, the iteration over the empty points returns
as soon as the recursive result for the current point is "w" or "b" (a win
for either color), after undoing the speculative stone; the remaining
siblings (rest) do not influence the result at all. -/
theorem C3_first_decisive_child_stops :
    (∀ (size fuel : Nat) (s : SState) (pt : Nat) (r : String),
      (minimaxBooleanAND size fuel (orChild size s pt)).1 = r →
      r = "w" ∨ r = "b" →
      ∀ rest, orLoop size (fuel + 1) s (pt :: rest) =
        (r, set_color (minimaxBooleanAND size fuel (orChild size s pt)).2 0 pt)) ∧
    (∀ (size fuel : Nat) (s : SState) (pt : Nat) (r : String),
      (minimaxBooleanOR size fuel (andChild size s pt)).1 = r →
      r = "b" ∨ r = "w" →
      ∀ rest, andLoop size (fuel + 1) s (pt :: rest) =
        (r, set_color (minimaxBooleanOR size fuel (andChild size s pt)).2 0 pt)) := by
  constructor
  · intro size fuel s pt r hr hdec rest
    have hcond : ((minimaxBooleanAND size fuel (orChild size s pt)).1 == "w" ||
        (minimaxBooleanAND size fuel (orChild size s pt)).1 == "b") = true := by
      rcases hdec with h | h <;> rw [hr, h] <;> rfl
    simp only [orLoop]
    rw [if_pos hcond, hr]
  · intro size fuel s pt r hr hdec rest
    have hcond : ((minimaxBooleanOR size fuel (andChild size s pt)).1 == "b" ||
        (minimaxBooleanOR size fuel (andChild size s pt)).1 == "w") = true := by
      rcases hdec with h | h <;> rw [hr, h] <;> rfl
    simp only [andLoop]
    rw [if_pos hcond, hr]

/-- C3 witness: on the board whiteWallBoard (white five already standing,
points 7 empty) the first child of the black loop makes the recursion report
"w" (a win for the NON-recursing side), and the loop run on the list
[7, 8] stops there with the stone undone. -/
theorem C3_first_decisive_child_stops_witness :
    (minimaxBooleanAND 5 1 (orChild 5 sWhiteWall 7)).1 = "w" ∧
    orLoop 5 2 sWhiteWall [7, 8] =
      ( "w", set_color (minimaxBooleanAND 5 1 (orChild 5 sWhiteWall 7)).2 0 7) :=
  ⟨rfl, C3_first_decisive_child_stops.1 5 1 sWhiteWall 7 "w" rfl (Or.inl rfl) [8]⟩

/-- C5: the response of the solve command as a function of the winner tag
and the current player (the formatting tail of solve_cmd): winner equal to
the mover color or "draw" responds tag-space-move, "unknown" responds
exactly "unknown", and the opponent color responds the bare tag. -/
theorem C5_solve_output_contract (current_player : Nat) (ms : String)
    (hcp : current_player = 1 ∨ current_player = 2) :
    solveOutput current_player "draw" ms = "draw" ++ " " ++ ms ∧
    solveOutput current_player "unknown" ms = "unknown" ∧
    (current_player = 1 →
      solveOutput current_player "b" ms = "b" ++ " " ++ ms ∧
      solveOutput current_player "w" ms = "w") ∧
    (current_player = 2 →
      solveOutput current_player "w" ms = "w" ++ " " ++ ms ∧
      solveOutput current_player "b" ms = "b") := by
  rcases hcp with h | h <;> subst h
  · exact ⟨rfl, rfl, fun _ => ⟨rfl, rfl⟩, fun h2 => absurd h2 (by decide)⟩
  · exact ⟨rfl, rfl, fun h1 => absurd h1 (by decide), fun _ => ⟨rfl, rfl⟩⟩

/-- C5 witness: the output contract evaluated for black to move and the
move string "A1". -/
theorem C5_solve_output_contract_witness :
    solveOutput 1 "draw" "A1" = "draw A1" ∧
    solveOutput 1 "unknown" "A1" = "unknown" ∧
    solveOutput 1 "b" "A1" = "b A1" ∧
    solveOutput 1 "w" "A1" = "w" := by
  have h := C5_solve_output_contract 1 "A1" (Or.inl rfl)
  exact ⟨h.1, h.2.1, (h.2.2.1 rfl).1, (h.2.2.1 rfl).2⟩

/-- C6: no speculative placement leaks: each policy rule function (win,
openFour, blockOpenFour, the random rollout) and both primary solver
searches return with the board cells exactly as they were. -/
theorem C6_board_restoration (size N player fuel : Nat) (sp : PState)
    (ss : SState) (shuffled : List Nat)
    (hperm : shuffled.Perm (get_empty_points sp.board)) :
    (win size player sp).board = sp.board ∧
    (openFour size player sp).board = sp.board ∧
    (blockOpenFour size player sp).board = sp.board ∧
    (randomRollout size N sp shuffled).2.board = sp.board ∧
    (minimaxBooleanOR size fuel ss).2.board = ss.board ∧
    (minimaxBooleanAND size fuel ss).2.board = ss.board :=
  ⟨win_board size player sp, openFour_board size player sp,
   blockOpenFour_board size player sp,
   randomRollout_board size N sp shuffled hperm,
   (minimax_board size fuel).1.1 ss, (minimax_board size fuel).1.2 ss⟩

/-- C6 witness: restoration evaluated on the concrete policy position
sWinInOne and the concrete solver position sWhiteWall. -/
theorem C6_board_restoration_witness :
    (win 5 1 sWinInOne).board = winInOneBoard ∧
    (openFour 5 1 sWinInOne).board = winInOneBoard ∧
    (blockOpenFour 5 1 sWinInOne).board = winInOneBoard ∧
    (randomRollout 5 10 sWinInOne [11]).2.board = winInOneBoard ∧
    (minimaxBooleanOR 5 2 sWhiteWall).2.board = whiteWallBoard ∧
    (minimaxBooleanAND 5 2 sWhiteWall).2.board = whiteWallBoard := by
  refine C6_board_restoration 5 10 1 2 sWinInOne sWhiteWall [11] ?_
  show List.Perm [11] (get_empty_points sWinInOne.board)
  have h : get_empty_points sWinInOne.board = [11] := rfl
  rw [h]

/-- C10: whenever the board has no empty point left, the final-result query
responds "draw", even if a completed five-in-a-row stands on the board (the
full-board check runs first and preempts the detector). -/
theorem C10_full_board_final_result (size : Nat) (b : List Nat)
    (h : (get_empty_points b).length = 0) :
    gogui_rules_final_result size b = "draw" := by
  simp [gogui_rules_final_result, h]

/-- C10 witness: the full all-black 5x5 board has a five-in-a-row (the
detector reports BLACK) and no empty point, and the final-result query
nevertheless responds "draw". -/
theorem C10_full_board_final_result_witness :
    (get_empty_points fullBlackBoard).length = 0 ∧
    detect_five_in_a_row 5 fullBlackBoard = BLACK ∧
    gogui_rules_final_result 5 fullBlackBoard = "draw" :=
  ⟨rfl, rfl, C10_full_board_final_result 5 fullBlackBoard rfl⟩

/-- C4: for every solve run that actually searches (no five-in-a-row already
on the board), the move reported with the outcome is the last entry appended
to the shared accumulator self.move — unless the search recorded at least
one immediate five-completing move in self.move_2, in which case the first
such recorded move takes precedence.  The relation holds for the state the
search actually ends in, whether or not the rescue pass ran (both passes
select the move the same way). -/
theorem C4_recommended_move (size fuel : Nat) (s : SState)
    (h : detect_five_in_a_row size s.board = 0) :
    ((solve_cmd size fuel s).2.2.move_2 ≠ [] →
      (solve_cmd size fuel s).2.1 = (solve_cmd size fuel s).2.2.move_2.head?) ∧
    ((solve_cmd size fuel s).2.2.move_2 = [] →
      (solve_cmd size fuel s).2.1 = (solve_cmd size fuel s).2.2.move.getLast?) := by
  have hsel : (solve_cmd size fuel s).2.1 = selectMove (solve_cmd size fuel s).2.2 := by
    simp only [solve_cmd, h]
    norm_num
    split <;> split <;> rfl
  constructor
  · intro hne
    rw [hsel, selectMove]
    have hlen : ((solve_cmd size fuel s).2.2.move_2.length != 0) = true := by
      cases hmv : (solve_cmd size fuel s).2.2.move_2 with
      | nil => exact absurd hmv hne
      | cons a l => simp
    rw [if_pos hlen]
  · intro hemp
    rw [hsel, selectMove]
    have hlen : ((solve_cmd size fuel s).2.2.move_2.length != 0) = false := by
      rw [hemp]
      rfl
    rw [hlen]
    rfl

/-- C4 witness: the full (draw) 2x2 board with a persisting accumulator
entry 4; the search terminates at the leaf, records nothing in self.move_2,
and the reported move is the last accumulator entry. -/
theorem C4_recommended_move_witness :
    detect_five_in_a_row 2 sFullTwo.board = 0 ∧
    (solve_cmd 2 1 sFullTwo).2.2.move_2 = [] ∧
    (solve_cmd 2 1 sFullTwo).2.1 = (solve_cmd 2 1 sFullTwo).2.2.move.getLast? ∧
    (solve_cmd 2 1 sFullTwo).2.1 = some 4 :=
  ⟨rfl, rfl, (C4_recommended_move 2 1 sFullTwo rfl).2 rfl, rfl⟩

/-- C7: decide( "rule_based" ) evaluates Win, BlockWin, OpenFour,
BlockOpenFour, Random in this order and returns the name and candidate list
of the first rule that leaves the shared candidate list non-empty; and on
the concrete board with exactly one empty cell completing five-in-a-row for
the mover, it returns the action "Win" with that cell as sole candidate. -/
theorem C7_rule_cascade :
    (∀ (size N : Nat) (s0 : PState) (shuffled : List Nat) (s1 s2 s3 s4 : PState),
      s0.moves = [] →
      s1 = win size s0.current_player s0 →
      s2 = win size (opponent s0.current_player) s1 →
      s3 = openFour size s0.current_player s2 →
      s4 = blockOpenFour size (opponent s0.current_player) s3 →
      (s1.moves ≠ [] →
        rule_based size N s0 shuffled = (( "Win", s1.moves), s1)) ∧
      (s1.moves = [] → s2.moves ≠ [] →
        rule_based size N s0 shuffled = (( "BlockWin", s2.moves), s2)) ∧
      (s1.moves = [] → s2.moves = [] → s3.moves ≠ [] →
        rule_based size N s0 shuffled = (( "OpenFour", s3.moves), s3)) ∧
      (s1.moves = [] → s2.moves = [] → s3.moves = [] → s4.moves ≠ [] →
        rule_based size N s0 shuffled = (( "BlockOpenFour", s4.moves), s4)) ∧
      (s1.moves = [] → s2.moves = [] → s3.moves = [] → s4.moves = [] →
        rule_based size N s0 shuffled =
          (( "Random", (randomRollout size N s4 shuffled).1),
            (randomRollout size N s4 shuffled).2))) ∧
    (∀ (size N : Nat) (s : PState) (shuffled : List Nat),
      decidePolicy size N s "rule_based" shuffled =
        rule_based size N { s with moves := [] } shuffled) ∧
    (decidePolicy 5 10 sWinInOne "rule_based" [11]).1 = ( "Win", [11]) := by
  refine ⟨?_, ?_, rfl⟩
  · intro size N s0 shuffled s1 s2 s3 s4 hm0 h1 h2 h3 h4
    subst h1 h2 h3 h4
    have hiff : ∀ t : PState, t.moves ≠ [] ↔ (t.moves.length != 0) = true := by
      intro t
      cases t.moves <;> simp
    refine ⟨?_, ?_, ?_, ?_, ?_⟩
    · intro hne
      rw [rule_based, if_pos ((hiff _).1 hne)]
    · intro he1 hne
      rw [rule_based, if_neg (by simp [he1]), if_pos ((hiff _).1 hne)]
    · intro he1 he2 hne
      rw [rule_based, if_neg (by simp [he1]), if_neg (by simp [he2]),
        if_pos ((hiff _).1 hne)]
    · intro he1 he2 he3 hne
      rw [rule_based, if_neg (by simp [he1]), if_neg (by simp [he2]),
        if_neg (by simp [he3]), if_pos ((hiff _).1 hne)]
    · intro he1 he2 he3 he4
      rw [rule_based, if_neg (by simp [he1]), if_neg (by simp [he2]),
        if_neg (by simp [he3]), if_neg (by simp [he4])]
  · intro size N s shuffled
    rw [decidePolicy, if_pos (by rfl)]

/-- C7 witness: on sWinInOne (exactly one empty point, 11, completing a
black five) the Win rule fires with sole candidate 11, and the cascade
instance of the theorem reproduces the computed decidePolicy value. -/
theorem C7_rule_cascade_witness :
    (win 5 1 { sWinInOne with moves := [] }).moves = [11] ∧
    rule_based 5 10 { sWinInOne with moves := [] } [11] =
      (( "Win", [11]), win 5 1 { sWinInOne with moves := [] }) := by
  refine ⟨rfl, ?_⟩
  have h := (C7_rule_cascade.1 5 10 { sWinInOne with moves := [] } [11]
    (win 5 1 { sWinInOne with moves := [] }) _ _ _ rfl rfl rfl rfl rfl).1
    (by rw [show (win 5 1 { sWinInOne with moves := [] }).moves = [11] from rfl]
        exact List.cons_ne_nil 11 [])
  rw [h]
  rfl

/-!  The walking player of the random rollout. -/

theorem opponent_mem (p : Nat) (hp : p = 1 ∨ p = 2) :
    opponent p = 1 ∨ opponent p = 2 := by
  rcases hp with h | h <;> subst h <;> simp [opponent]

theorem altPlayer_mem (p n : Nat) (hp : p = 1 ∨ p = 2) :
    altPlayer p n = 1 ∨ altPlayer p n = 2 := by
  rw [altPlayer]
  split
  · exact hp
  · exact opponent_mem p hp

theorem altPlayer_altPlayer (p a b : Nat) (hp : p = 1 ∨ p = 2) :
    altPlayer (altPlayer p a) b = altPlayer p (a + b) := by
  rcases hp with h | h <;> subst h <;>
    (by_cases ha : a % 2 = 0 <;> by_cases hb : b % 2 = 0
     · have hab : (a + b) % 2 = 0 := by omega
       simp [altPlayer, opponent, ha, hb, hab]
     · have hab : (a + b) % 2 = 1 := by omega
       simp [altPlayer, opponent, ha, hb, hab]
     · have ha1 : a % 2 = 1 := by omega
       have hab : (a + b) % 2 = 1 := by omega
       simp [altPlayer, opponent, ha1, hb, hab]
     · have ha1 : a % 2 = 1 := by omega
       have hb1 : b % 2 = 1 := by omega
       have hab : (a + b) % 2 = 0 := by omega
       simp [altPlayer, opponent, ha1, hb1, hab])

theorem trialWalk_player (size cp : Nat) :
    ∀ (cells : List Nat) (player : Nat) (s : PState) (mt fm : List Nat),
    player = 1 ∨ player = 2 →
    (trialWalk size cp player s cells mt fm).2.1 =
      altPlayer player cells.length := by
  intro cells
  induction cells with
  | nil =>
    intro player s mt fm hp
    simp [trialWalk, altPlayer]
  | cons e rest ih =>
    intro player s mt fm hp
    simp only [trialWalk]
    rw [ih (opponent player) _ _ _ (opponent_mem player hp)]
    rcases hp with h | h <;> subst h <;>
      (by_cases hn : rest.length % 2 = 0
       · have h1 : (rest.length + 1) % 2 = 1 := by omega
         simp [altPlayer, opponent, hn, h1]
       · have h0 : rest.length % 2 = 1 := by omega
         have h1 : (rest.length + 1) % 2 = 0 := by omega
         simp [altPlayer, opponent, h0, h1])

theorem randomTrials_starts (size cp : Nat) (shuffled : List Nat) :
    ∀ (N player : Nat) (s : PState) (fm : List Nat) (k v : Nat),
    player = 1 ∨ player = 2 →
    (randomTrials size cp shuffled N player s fm).2.2.2.get? k = some v →
    v = altPlayer player (k * shuffled.length) := by
  intro N
  induction N with
  | zero =>
    intro player s fm k v hp hget
    simp [randomTrials] at hget
  | succ n ih =>
    intro player s fm k v hp hget
    simp only [randomTrials] at hget
    cases k with
    | zero =>
      simp only [List.get?_cons_zero, Option.some.injEq] at hget
      rw [← hget]
      simp [altPlayer]
    | succ k' =>
      simp only [List.get?_cons_succ] at hget
      have hw := trialWalk_player size cp shuffled player s [] fm hp
      rw [hw] at hget
      have hv := ih (altPlayer player shuffled.length) _ _ k' v
        (altPlayer_mem player shuffled.length hp) hget
      rw [hv, altPlayer_altPlayer player shuffled.length (k' * shuffled.length) hp]
      have : shuffled.length + k' * shuffled.length = (k' + 1) * shuffled.length := by
        ring
      rw [this]

/-- C8 (amended): the walking player of the rollout is NOT reset between
trials; the player that receives the first assignment of trial k is the
mover flipped once per cell assigned by the preceding trials, that is,
altPlayer current_player (k * |shuffled|).  Every trial starts with the
mover only when the shuffled empty list has even length. -/
theorem C8_trial_start_players (size N : Nat) (s : PState)
    (shuffled : List Nat) (k v : Nat)
    (hp : s.current_player = 1 ∨ s.current_player = 2)
    (hk : (randomTrialStarts size N s shuffled).get? k = some v) :
    v = altPlayer s.current_player (k * shuffled.length) :=
  randomTrials_starts size s.current_player shuffled N s.current_player s
    [] k v hp hk

/-- C8 witness: on the one-empty-cell 2x2 board with two trials, the second
trial starts with player 2 = altPlayer 1 (1 * 1), the opponent. -/
theorem C8_trial_start_players_witness :
    (randomTrialStarts 2 2 sOneEmpty [8]).get? 1 = some 2 ∧
    2 = altPlayer sOneEmpty.current_player (1 * ([8] : List Nat).length) :=
  ⟨rfl, C8_trial_start_players 2 2 sOneEmpty [8] 1 2 (Or.inl rfl) rfl⟩

/-- C8 counterexample: the claim as stated says every trial starts with the
mover; on the concrete board with one empty cell (odd shuffled length) and
two trials the recorded trial-start players are [1, 2]: the second trial
starts with the opponent of the mover (current player 1). -/
theorem C8_counterexample :
    randomTrialStarts 2 2 sOneEmpty [8] = [1, 2] ∧
    sOneEmpty.current_player = 1 ∧
    ¬ (∀ v ∈ randomTrialStarts 2 2 sOneEmpty [8],
        v = sOneEmpty.current_player) := by
  exact ⟨rfl, rfl, by decide⟩

/-!  decidePolicy: board restoration and dependence on (board, player) only. -/

theorem rule_based_board (size N : Nat) (s : PState) (shuffled : List Nat)
    (hperm : shuffled.Perm (get_empty_points s.board)) :
    (rule_based size N s shuffled).2.board = s.board := by
  have h1 : (win size s.current_player s).board = s.board :=
    win_board size s.current_player s
  have h2 : (win size (opponent s.current_player)
      (win size s.current_player s)).board = s.board := by
    rw [win_board, h1]
  have h3 : (openFour size s.current_player (win size (opponent s.current_player)
      (win size s.current_player s))).board = s.board := by
    rw [openFour_board, h2]
  have h4 : (blockOpenFour size (opponent s.current_player)
      (openFour size s.current_player (win size (opponent s.current_player)
        (win size s.current_player s)))).board = s.board := by
    rw [blockOpenFour_board, h3]
  simp only [rule_based]
  split
  · exact h1
  · split
    · exact h2
    · split
      · exact h3
      · split
        · exact h4
        · exact (randomRollout_board size N _ shuffled (by rw [h4]; exact hperm)).trans h4

theorem decidePolicy_board (size N : Nat) (s : PState) (policy : String)
    (shuffled : List Nat)
    (hperm : shuffled.Perm (get_empty_points s.board)) :
    (decidePolicy size N s policy shuffled).2.board = s.board := by
  simp only [decidePolicy]
  split
  · exact rule_based_board size N { s with moves := [] } shuffled hperm
  · split
    · exact randomRollout_board size N { s with moves := [] } shuffled hperm
    · rfl

theorem decidePolicy_ext (size N : Nat) (s t : PState) (policy : String)
    (shuffled : List Nat) (hb : s.board = t.board)
    (hcp : s.current_player = t.current_player) :
    decidePolicy size N s policy shuffled =
      decidePolicy size N t policy shuffled := by
  have hst : ({ s with moves := [] } : PState) = { t with moves := [] } := by
    cases s
    cases t
    simp_all
  simp only [decidePolicy]
  rw [hst]

/-- C9 (amended): decide restores the board cells but not the current
player (the speculative play_move calls of the rules leave the player
flipped), and its output is a function of the board cells and the current
player only; hence two successive decide calls with the same shuffled list
agree whenever the current player is restored between the calls. -/
theorem C9_decide_repeat (size N : Nat) (s : PState) (policy : String)
    (shuffled : List Nat)
    (hperm : shuffled.Perm (get_empty_points s.board)) :
    decidePolicy size N
      { (decidePolicy size N s policy shuffled).2 with
        current_player := s.current_player } policy shuffled =
    decidePolicy size N s policy shuffled := by
  apply decidePolicy_ext
  · exact decidePolicy_board size N s policy shuffled hperm
  · rfl

/-- C9 witness: the amended repeat property evaluated on the concrete
position sWinInOne with the rule-based policy. -/
theorem C9_decide_repeat_witness :
    decidePolicy 5 10
      { (decidePolicy 5 10 sWinInOne "rule_based" [11]).2 with
        current_player := sWinInOne.current_player } "rule_based" [11] =
    decidePolicy 5 10 sWinInOne "rule_based" [11] := by
  refine C9_decide_repeat 5 10 sWinInOne "rule_based" [11] ?_
  show List.Perm [11] (get_empty_points sWinInOne.board)
  have h : get_empty_points sWinInOne.board = [11] := rfl
  rw [h]

/-- C9 counterexample: the claim as stated says two decide calls in a row
(no intervening playMove) return the same action and candidates; on
sWinInOne the first rule-based call returns the action "Win", but it leaves
the current player flipped to 2, so the immediate second call returns the
action "BlockWin". -/
theorem C9_counterexample :
    (decidePolicy 5 10 sWinInOne "rule_based" [11]).1.1 = "Win" ∧
    (decidePolicy 5 10 (decidePolicy 5 10 sWinInOne "rule_based" [11]).2
      "rule_based" [11]).1.1 = "BlockWin" ∧
    ( "Win" : String) ≠ "BlockWin" :=
  ⟨rfl, rfl, by decide⟩

end FiveInARow